import Mathlib

/-!
Shallow embedding of `lifegame.py` (Conway's Game of Life for PicoCalc)
and verification of its specification claims.

Grids are flat `List Nat` buffers (the Python `bytearray`), indexed by
`y * width + x`.  Python's `%` on a negative dividend with a positive
modulus agrees with `Int.emod`, which is used for the toroidal wrap.
Display pixel writes are modelled as emitted paint instructions; the
keyboard is modelled as a list of poll results consumed by each
`keyboard.readinto` call.
-/

namespace Lifegame

/-- Screen width in pixels (`SCREEN_WIDTH = 320`). -/
def SCREEN_WIDTH : Nat := 320

/-- Screen height in pixels (`SCREEN_HEIGHT = 312`). -/
def SCREEN_HEIGHT : Nat := 312

/-- Cell size in pixels (`CELL_SIZE = 4`). -/
def CELL_SIZE : Nat := 4

/-- `GRID_WIDTH = SCREEN_WIDTH // CELL_SIZE`. -/
def GRID_WIDTH : Nat := SCREEN_WIDTH / CELL_SIZE

/-- `GRID_HEIGHT = SCREEN_HEIGHT // CELL_SIZE`. -/
def GRID_HEIGHT : Nat := SCREEN_HEIGHT / CELL_SIZE

/-- `COLOR_DEAD = 0`. -/
def COLOR_DEAD : Nat := 0

/-- `COLOR_ALIVE = 7`. -/
def COLOR_ALIVE : Nat := 7

/-- `COLOR_BORN = 11`. -/
def COLOR_BORN : Nat := 11

/-- `COLOR_DIED = 8`. -/
def COLOR_DIED : Nat := 8

/-- The state of a `LifeGame` object: the fields set by `LifeGame.__init__`. -/
structure LifeGame where
  width : Nat
  height : Nat
  grid : List Nat
  next_grid : List Nat
  paused : Bool
  running : Bool
  generation : Nat
deriving DecidableEq

/-- `_create_grid`: `bytearray(self.width * self.height)`, zero-filled. -/
def create_grid (width height : Nat) : List Nat :=
  List.replicate (width * height) 0

/-- `randomize_grid`: `grid[i] = random.randint(0, 1)` for every index.
`rand i` models the value returned by the i-th `randint(0, 1)` call. -/
def randomize_grid (grid : List Nat) (rand : Nat → Nat) : List Nat :=
  (List.range grid.length).map rand

/-- `LifeGame.__init__(width, height)`: creates both buffers, randomizes
`grid`, and initializes `paused`, `running`, `generation`.  There is no
validation of `width`/`height` anywhere in the constructor. -/
def LifeGame.init (width height : Nat) (rand : Nat → Nat) : LifeGame :=
  { width := width
    height := height
    grid := randomize_grid (create_grid width height) rand
    next_grid := create_grid width height
    paused := false
    running := true
    generation := 0 }

/-- The flat index computed inline in `step` (lines 64-66):
`nx, ny = x % width, y % height`; the cell read is `grid[ny * width + nx]`. -/
def wrapIdx (w h : Nat) (x y : Int) : Nat :=
  ((y % (h : Int)) * w + x % (w : Int)).toNat

/-- Reading a cell through the toroidal addressing of lines 64-66. -/
def getCell (w h : Nat) (grid : List Nat) (x y : Int) : Nat :=
  grid.getD (wrapIdx w h x y) 0

/-- The neighbor-count loop of `step` (lines 58-67): `dy` and `dx` range
over `-1, 0, 1` (`dyi - 1` for `dyi` in `range 3`), the `(0, 0)` offset is
skipped, and a neighbor counts when its byte is truthy (nonzero). -/
def liveNeighbors (w h : Nat) (grid : List Nat) (x y : Nat) : Nat :=
  List.sum <| (List.range 3).map fun dyi =>
    List.sum <| (List.range 3).map fun dxi =>
      let dx : Int := (dxi : Int) - 1
      let dy : Int := (dyi : Int) - 1
      if dx = 0 ∧ dy = 0 then 0
      else if grid.getD (wrapIdx w h ((x : Int) + dx) ((y : Int) + dy)) 0 ≠ 0 then 1
      else 0

/-- The double loop of `step` (lines 55-82): for each `y < height`,
`x < width`, the destination byte at `y * width + x` is written per the
Game of Life rules, reading only `grid`. -/
def stepBody (w h : Nat) (grid : List Nat) : List Nat :=
  (List.range h).flatMap fun y =>
    (List.range w).map fun x =>
      let live_neighbors := liveNeighbors w h grid x y
      let is_alive := grid.getD (y * w + x) 0
      if is_alive ≠ 0 then
        if live_neighbors < 2 ∨ live_neighbors > 3 then 0 else 1
      else
        if live_neighbors = 3 then 1 else 0

/-- `LifeGame.step`: increments `generation`, fills `next_grid` from
`grid` (modelled by `stepBody`, which recomputes every index exactly as
the loop writes it), then swaps the two buffer references (line 85). -/
def LifeGame.step (g : LifeGame) : LifeGame :=
  { g with
    generation := g.generation + 1
    grid := stepBody g.width g.height g.grid
    next_grid := g.grid }

/-- One `CELL_SIZE × CELL_SIZE` painted block (one cell repaint).
`start_x`, `start_y` are the top-left pixel, as in lines 108-111. -/
structure CellPaint where
  start_x : Nat
  start_y : Nat
  color : Nat
deriving DecidableEq

/-- The individual `display.pixel` calls of one cell block (lines 109-111). -/
def cellPixels (c : CellPaint) : List (Nat × Nat × Nat) :=
  (List.range CELL_SIZE).flatMap fun i =>
    (List.range CELL_SIZE).map fun j =>
      (c.start_x + j, c.start_y + i, c.color)

/-- The diff renderer core (`_draw_changed_cells`, lines 92-111), written
over an explicit (previous, current) grid pair: cells whose states are
equal are skipped (`continue`); a changed cell emits one block, colored
by mode. -/
def diffDraw (w h : Nat) (prev cur : List Nat) (use_highlight_colors : Bool) :
    List CellPaint :=
  (List.range h).flatMap fun y =>
    (List.range w).filterMap fun x =>
      let index := y * w + x
      let old_state := prev.getD index 0
      let new_state := cur.getD index 0
      if old_state = new_state then none
      else
        let color :=
          if use_highlight_colors then
            if new_state = 1 then COLOR_BORN else COLOR_DIED
          else
            if new_state = 1 then COLOR_ALIVE else COLOR_DEAD
        some ⟨x * CELL_SIZE, y * CELL_SIZE, color⟩

/-- `_draw_changed_cells` on a game state: `next_grid` is the previous
generation and `grid` the current one (lines 96-97). -/
def draw_changed_cells (g : LifeGame) (use_highlight_colors : Bool) :
    List CellPaint :=
  diffDraw g.width g.height g.next_grid g.grid use_highlight_colors

/-- `draw_full_grid` (lines 121-130): paints every cell unconditionally
with the normal alive/dead colors. -/
def draw_full_grid (g : LifeGame) : List CellPaint :=
  (List.range g.height).flatMap fun y =>
    (List.range g.width).map fun x =>
      let index := y * g.width + x
      let color := if g.grid.getD index 0 ≠ 0 then COLOR_ALIVE else COLOR_DEAD
      ⟨x * CELL_SIZE, y * CELL_SIZE, color⟩

/-- The color chosen by `_draw_changed_cells` for a changed cell (lines
103-106), extracted as a function of the mode and the new state. -/
def diffColor (use_highlight_colors : Bool) (new_state : Nat) : Nat :=
  if use_highlight_colors then
    if new_state = 1 then COLOR_BORN else COLOR_DIED
  else
    if new_state = 1 then COLOR_ALIVE else COLOR_DEAD

/-- The phase names written to the status line by the run loop. -/
inductive Phase where
  | displayingGen
  | calculating
  | drawingHighlights
  | displayingHighlights
  | finalizing
  | endOfGen
  | pausedStatus
deriving DecidableEq

/-- Observable effects of one run-loop iteration: status-line writes,
`step` invocations (tagged with the new generation), and paint output. -/
inductive Event where
  | status (gen : Nat) (phase : Phase)
  | stepped (gen : Nat)
  | paint (blocks : List CellPaint)
deriving DecidableEq

/-- One `keyboard.readinto(temp_key_buffer)` call: consumes the next poll
result from the modelled input source (`none` when no key is available). -/
def readKey : List (Option Char) → Option Char × List (Option Char)
  | [] => (none, [])
  | p :: rest => (p, rest)

/-- The key-handling block of `run` (lines 150-158): `p`/`P` toggles
`paused` and, when this resumes the simulation, redraws the whole grid;
`q`/`Q` clears `running`; other keys are ignored. -/
def handleKey (g : LifeGame) (k : Option Char) : LifeGame × List Event :=
  match k with
  | none => (g, [])
  | some c =>
    if c = 'p' ∨ c = 'P' then
      let g' := { g with paused := !g.paused }
      if g'.paused = false then (g', [Event.paint (draw_full_grid g')])
      else (g', [])
    else if c = 'q' ∨ c = 'Q' then ({ g with running := false }, [])
    else (g, [])

/-- One iteration of the `while self.running` body (lines 142-191): poll
the keyboard and handle the key; when not paused, report the displayed
generation, dwell, poll again — a key read here aborts the iteration via
`continue` (line 167) — else step, draw highlights, dwell, reset
highlights; finally write the paused or end-of-generation status.
Returns the new state, the remaining poll results, and the event trace. -/
def runCycle (g : LifeGame) (polls : List (Option Char)) :
    LifeGame × List (Option Char) × List Event :=
  let r := readKey polls
  let hk := handleKey g r.1
  let g1 := hk.1
  let evs := hk.2
  if g1.paused = false then
    let evs := evs ++ [Event.status g1.generation Phase.displayingGen]
    let r2 := readKey r.2
    if r2.1.isSome then
      (g1, r2.2, evs)
    else
      let evs := evs ++ [Event.status g1.generation Phase.calculating]
      let g2 := g1.step
      let evs := evs ++ [Event.stepped g2.generation]
      let evs := evs ++ [Event.status g2.generation Phase.drawingHighlights]
      let evs := evs ++ [Event.paint (draw_changed_cells g2 true)]
      let evs := evs ++ [Event.status g2.generation Phase.displayingHighlights]
      let evs := evs ++ [Event.status g2.generation Phase.finalizing]
      let evs := evs ++ [Event.paint (draw_changed_cells g2 false)]
      let evs := evs ++ [Event.status g2.generation Phase.endOfGen]
      (g2, r2.2, evs)
  else
    (g1, r.2, evs ++ [Event.status g1.generation Phase.pausedStatus])

/-- The `while self.running` loop, with explicit fuel bounding the number
of iterations observed.  The loop condition is checked before each
iteration, exactly as in the source. -/
def runLoop : Nat → LifeGame → List (Option Char) →
    LifeGame × List (Option Char) × List Event
  | 0, g, polls => (g, polls, [])
  | fuel + 1, g, polls =>
    if g.running then
      let c := runCycle g polls
      let rest := runLoop fuel c.1 c.2.1
      (rest.1, rest.2.1, c.2.2 ++ rest.2.2)
    else (g, polls, [])

/-- Spec-side indicator (claim C1): 1 when the toroidally wrapped cell at
integer coordinates `(nx, ny)` is alive. -/
def aliveBit (w h : Nat) (grid : List Nat) (nx ny : Int) : Nat :=
  if grid.getD (wrapIdx w h nx ny) 0 ≠ 0 then 1 else 0

/-- Spec-side neighbor count (claim C1): the sum over the 8 offsets
`(dx, dy) ∈ {-1,0,1} × {-1,0,1} \ {(0,0)}` of the wrapped-cell
indicators, so duplicate wrapped positions are counted again. -/
def specLiveCount (w h : Nat) (grid : List Nat) (x y : Nat) : Nat :=
  aliveBit w h grid ((x : Int) - 1) ((y : Int) - 1) +
  aliveBit w h grid (x : Int) ((y : Int) - 1) +
  aliveBit w h grid ((x : Int) + 1) ((y : Int) - 1) +
  aliveBit w h grid ((x : Int) - 1) (y : Int) +
  aliveBit w h grid ((x : Int) + 1) (y : Int) +
  aliveBit w h grid ((x : Int) - 1) ((y : Int) + 1) +
  aliveBit w h grid (x : Int) ((y : Int) + 1) +
  aliveBit w h grid ((x : Int) + 1) ((y : Int) + 1)

/-- Spec-side rule table of §4.2: the new state is alive exactly when the
cell is alive with 2 or 3 live neighbors, or dead with exactly 3. -/
def specRule (alive : Bool) (n : Nat) : Bool :=
  (alive && (n == 2 || n == 3)) || (!alive && n == 3)

/-- All cell bytes of a buffer are 0 or 1. -/
def cells01 (l : List Nat) : Prop := ∀ v ∈ l, v = 0 ∨ v = 1

/-- A vertical blinker (1×3 bar) centered on a 5×5 grid. -/
def blinkerVertical : List Nat :=
  [0, 0, 0, 0, 0,
   0, 0, 1, 0, 0,
   0, 0, 1, 0, 0,
   0, 0, 1, 0, 0,
   0, 0, 0, 0, 0]

/-- The horizontal orientation of the same blinker. -/
def blinkerHorizontal : List Nat :=
  [0, 0, 0, 0, 0,
   0, 0, 0, 0, 0,
   0, 1, 1, 1, 0,
   0, 0, 0, 0, 0,
   0, 0, 0, 0, 0]

/-- A 5×5 game holding the vertical blinker. -/
def blinkerGame : LifeGame :=
  { width := 5
    height := 5
    grid := blinkerVertical
    next_grid := List.replicate 25 0
    paused := false
    running := true
    generation := 0 }

/-- A freshly constructed 3×3 game with an all-dead grid (`rand` always
returns 0), used as a concrete run-loop scenario. -/
def deadGame3 : LifeGame := LifeGame.init 3 3 fun _ => 0

/-- A concrete paused game state, used as a concrete scenario. -/
def pausedGame : LifeGame :=
  { width := 1
    height := 1
    grid := [1]
    next_grid := [0]
    paused := true
    running := true
    generation := 5 }

/-! ## Helper lemmas -/

/-- The code's loop-with-skip neighbor count equals the spec-side explicit
8-term sum. -/
lemma liveNeighbors_eq_spec (w h : Nat) (grid : List Nat) (x y : Nat) :
    liveNeighbors w h grid x y = specLiveCount w h grid x y := by
  unfold liveNeighbors specLiveCount aliveBit
  norm_num [show (List.range 3) = [0, 1, 2] from rfl]
  ring_nf

/-- Row-major flattening of the nested y/x loop, `filterMap` form. -/
lemma range_flatMap_filterMap {α : Type} (w : Nat) (f : Nat → Nat → Option α) :
    ∀ h : Nat, (List.range h).flatMap (fun y => (List.range w).filterMap fun x => f y x)
      = (List.range (h * w)).filterMap fun i => f (i / w) (i % w) := by
  intro h
  induction h with
  | zero => simp
  | succ n ih =>
    rw [List.range_succ, List.flatMap_append, ih, Nat.succ_mul, List.range_add,
      List.filterMap_append]
    congr 1
    rw [List.flatMap_cons, List.flatMap_nil, List.append_nil, List.filterMap_map]
    refine List.filterMap_congr fun x hx => ?_
    have hxw : x < w := List.mem_range.mp hx
    have hw : 0 < w := by omega
    simp only [Function.comp]
    rw [Nat.add_comm (n * w) x, Nat.mul_comm n w, Nat.add_mul_div_left x n hw,
      Nat.div_eq_of_lt hxw, Nat.add_mul_mod_self_left, Nat.mod_eq_of_lt hxw, Nat.zero_add]

/-- Row-major flattening of the nested y/x loop, `map` form. -/
lemma range_flatMap_map {α : Type} (w h : Nat) (f : Nat → Nat → α) :
    (List.range h).flatMap (fun y => (List.range w).map fun x => f y x)
      = (List.range (h * w)).map fun i => f (i / w) (i % w) := by
  have hfm := range_flatMap_filterMap w (fun y x => some (f y x)) h
  have h1 : ∀ y : Nat, List.filterMap (fun x => some (f y x)) (List.range w)
      = (List.range w).map fun x => f y x := fun y => List.filterMap_eq_map (f y) ▸ rfl
  simp only [h1] at hfm
  rw [hfm, ← List.filterMap_eq_map]
  rfl

lemma getD_range_map {α : Type} (n i : Nat) (f : Nat → α) (d : α) (hi : i < n) :
    ((List.range n).map f).getD i d = f i := by
  rw [List.getD_eq_getElem?_getD, List.getElem?_map, List.getElem?_range hi]
  rfl

lemma rowcol_lt (w h x y : Nat) (hx : x < w) (hy : y < h) : y * w + x < h * w := by
  calc y * w + x < y * w + w := by omega
    _ = (y + 1) * w := by ring
    _ ≤ h * w := Nat.mul_le_mul_right w (by omega)

lemma rowcol_div (w x y : Nat) (hx : x < w) : (y * w + x) / w = y := by
  rw [Nat.add_comm, Nat.mul_comm, Nat.add_mul_div_left x y (by omega), Nat.div_eq_of_lt hx,
    Nat.zero_add]

lemma rowcol_mod (w x y : Nat) (hx : x < w) : (y * w + x) % w = x := by
  rw [Nat.mul_comm y w, Nat.mul_add_mod, Nat.mod_eq_of_lt hx]

/-- What `step` writes at the in-range index `y * w + x`. -/
lemma stepBody_getD (w h : Nat) (grid : List Nat) (x y : Nat) (hx : x < w) (hy : y < h) :
    (stepBody w h grid).getD (y * w + x) 0 =
      if grid.getD (y * w + x) 0 ≠ 0 then
        if liveNeighbors w h grid x y < 2 ∨ liveNeighbors w h grid x y > 3 then 0 else 1
      else
        if liveNeighbors w h grid x y = 3 then 1 else 0 := by
  unfold stepBody
  rw [range_flatMap_map]
  rw [getD_range_map _ _ _ _ (rowcol_lt w h x y hx hy)]
  simp only [rowcol_div w x y hx, rowcol_mod w x y hx]

/-! ## Claims -/

/-- C1: for every grid, every in-range cell `(x, y)`, and every 0/1 cell
state, `step` writes the destination cell as the spec's rule table applied
to the spec's 8-offset toroidal neighbor sum. -/
theorem step_rule_fidelity (w h : Nat) (grid : List Nat) (x y : Nat)
    (hx : x < w) (hy : y < h) (hvals : cells01 grid) :
    (stepBody w h grid).getD (y * w + x) 0 =
      if specRule (grid.getD (y * w + x) 0 == 1) (specLiveCount w h grid x y) then 1
      else 0 := by
  rw [stepBody_getD w h grid x y hx hy, ← liveNeighbors_eq_spec]
  have hv : grid.getD (y * w + x) 0 = 0 ∨ grid.getD (y * w + x) 0 = 1 := by
    rcases Nat.lt_or_ge (y * w + x) grid.length with hi | hi
    · have he : grid.getD (y * w + x) 0 = grid[y * w + x] := by
        rw [List.getD_eq_getElem?_getD, List.getElem?_eq_getElem hi]; rfl
      rw [he]; exact hvals _ (List.getElem_mem hi)
    · exact Or.inl (List.getD_eq_default grid 0 hi)
  rcases hv with hv | hv <;> rw [hv] <;> simp only [specRule] <;>
    split_ifs <;> simp_all <;> omega

/-- Witness for C1 at a concrete 3×3 grid and cell (1, 1). -/
theorem step_rule_fidelity_witness :
    (stepBody 3 3 [1, 1, 0, 0, 1, 0, 0, 0, 0]).getD (1 * 3 + 1) 0 =
      if specRule ([1, 1, 0, 0, 1, 0, 0, 0, 0].getD (1 * 3 + 1) 0 == 1)
          (specLiveCount 3 3 [1, 1, 0, 0, 1, 0, 0, 0, 0] 1 1) then 1
      else 0 :=
  step_rule_fidelity 3 3 [1, 1, 0, 0, 1, 0, 0, 0, 0] 1 1 (by decide) (by decide)
    (by unfold cells01; decide)

/-- C6: the vertical blinker on a 5×5 grid becomes horizontal after one
`step` and returns to the original configuration after two. -/
theorem blinker_period_two :
    blinkerGame.step.grid = blinkerHorizontal ∧
    blinkerGame.step.step.grid = blinkerVertical := by
  decide

lemma filterMap_ifnone_eq {α β : Type} (p : α → Prop) [DecidablePred p] (f : α → β)
    (l : List α) :
    (l.filterMap fun a => if p a then none else some (f a)) =
      (l.filter fun a => decide ¬ p a).map f := by
  induction l with
  | nil => rfl
  | cons a l ih => by_cases h : p a <;> simp [List.filterMap_cons, List.filter_cons, h, ih]

lemma getD_replicate (n a i d : Nat) :
    (List.replicate n a).getD i d = if i < n then a else d := by
  rw [List.getD_eq_getElem?_getD, List.getElem?_replicate]
  split_ifs <;> rfl

/-- The diff renderer, as a filter-then-map over row-major indices. -/
lemma diffDraw_eq (w h : Nat) (prev cur : List Nat) (m : Bool) :
    diffDraw w h prev cur m =
      ((List.range (h * w)).filter fun i => decide ¬ prev.getD i 0 = cur.getD i 0).map
        fun i => ⟨(i % w) * CELL_SIZE, (i / w) * CELL_SIZE, diffColor m (cur.getD i 0)⟩ := by
  unfold diffDraw
  rw [range_flatMap_filterMap, ← filterMap_ifnone_eq]
  refine List.filterMap_congr fun i hi => ?_
  simp only [Nat.div_add_mod' i w]
  rfl

/-- C2: the diff draw emits exactly one block instruction per index where
the two buffers differ — none when they agree, zero total when they are
equal, `W·H` total for all-dead versus all-alive — with the block placed
at the cell's screen position and colored by the mode from the new
state. -/
theorem diff_render_correct (w h : Nat) (prev cur : List Nat) (m : Bool) :
    (diffDraw w h prev cur m).length
        = ((List.range (h * w)).filter fun i => decide ¬ prev.getD i 0 = cur.getD i 0).length
    ∧ diffDraw w h cur cur m = []
    ∧ (diffDraw w h (List.replicate (w * h) 0) (List.replicate (w * h) 1) m).length = w * h
    ∧ (∀ x y, x < w → y < h → prev.getD (y * w + x) 0 ≠ cur.getD (y * w + x) 0 →
        (⟨x * CELL_SIZE, y * CELL_SIZE, diffColor m (cur.getD (y * w + x) 0)⟩ : CellPaint)
          ∈ diffDraw w h prev cur m)
    ∧ (∀ c ∈ diffDraw w h prev cur m, ∃ i, i < h * w ∧ prev.getD i 0 ≠ cur.getD i 0 ∧
        c = ⟨(i % w) * CELL_SIZE, (i / w) * CELL_SIZE, diffColor m (cur.getD i 0)⟩) := by
  refine ⟨?_, ?_, ?_, ?_, ?_⟩
  · rw [diffDraw_eq, List.length_map]
  · rw [diffDraw_eq]
    simp
  · rw [diffDraw_eq, List.length_map]
    have hf : ((List.range (h * w)).filter fun i =>
        decide ¬ (List.replicate (w * h) 0).getD i 0 = (List.replicate (w * h) 1).getD i 0)
        = List.range (h * w) := by
      rw [List.filter_eq_self]
      intro i hi
      have hiw : i < w * h := by
        have h2 := List.mem_range.mp hi
        rwa [Nat.mul_comm] at h2
      simp [getD_replicate, hiw]
    rw [hf, List.length_range, Nat.mul_comm]
  · intro x y hx hy hne
    rw [diffDraw_eq]
    refine List.mem_map.mpr ⟨y * w + x, List.mem_filter.mpr ⟨List.mem_range.mpr
      (rowcol_lt w h x y hx hy), by simpa using hne⟩, ?_⟩
    rw [rowcol_div w x y hx, rowcol_mod w x y hx]
  · intro c hc
    rw [diffDraw_eq] at hc
    obtain ⟨i, hif, hc⟩ := List.mem_map.mp hc
    obtain ⟨hir, hip⟩ := List.mem_filter.mp hif
    exact ⟨i, List.mem_range.mp hir, by simpa using hip, hc.symm⟩

/-- Witness for C2: a changed cell on a concrete 2×1 grid pair yields its
highlight block. -/
theorem diff_render_correct_witness :
    (⟨0 * CELL_SIZE, 0 * CELL_SIZE, diffColor true ([1, 1].getD (0 * 2 + 0) 0)⟩ : CellPaint)
      ∈ diffDraw 2 1 [0, 1] [1, 1] true :=
  (diff_render_correct 2 1 [0, 1] [1, 1] true).2.2.2.1 0 0 (by decide) (by decide)
    (by decide)

/-- C3 (amended): toroidal addressing is total — every integer coordinate
pair normalizes to an index inside `[0, W·H)` — and `(W, H)` resolves to
the cell `(0, 0)`, while `(-1, -1)`, `(W, -1)`, `(-1, H)` resolve to the
wrapped corners `(W-1, H-1)`, `(0, H-1)`, `(W-1, 0)` respectively. -/
theorem toroidal_wrap_total (w h : Nat) (x y : Int) (hw : 1 ≤ w) (hh : 1 ≤ h) :
    wrapIdx w h x y < w * h
    ∧ wrapIdx w h w h = wrapIdx w h 0 0
    ∧ wrapIdx w h (-1) (-1) = wrapIdx w h ((w : Int) - 1) ((h : Int) - 1)
    ∧ wrapIdx w h w (-1) = wrapIdx w h 0 ((h : Int) - 1)
    ∧ wrapIdx w h (-1) h = wrapIdx w h ((w : Int) - 1) 0 := by
  have hw0 : (0 : Int) < w := by exact_mod_cast hw
  have hh0 : (0 : Int) < h := by exact_mod_cast hh
  have hm1w : (-1 : Int) % (w : Int) = (w : Int) - 1 := by
    have h1 := Int.add_mul_emod_self_left (-1) (w : Int) 1
    have h2 : ((-1 : Int) + (w : Int) * 1) = (w : Int) - 1 := by ring
    rw [h2] at h1
    rw [← h1, Int.emod_eq_of_lt (by omega) (by omega)]
  have hm1h : (-1 : Int) % (h : Int) = (h : Int) - 1 := by
    have h1 := Int.add_mul_emod_self_left (-1) (h : Int) 1
    have h2 : ((-1 : Int) + (h : Int) * 1) = (h : Int) - 1 := by ring
    rw [h2] at h1
    rw [← h1, Int.emod_eq_of_lt (by omega) (by omega)]
  have hw1 : ((w : Int) - 1) % (w : Int) = (w : Int) - 1 :=
    Int.emod_eq_of_lt (by omega) (by omega)
  have hh1 : ((h : Int) - 1) % (h : Int) = (h : Int) - 1 :=
    Int.emod_eq_of_lt (by omega) (by omega)
  refine ⟨?_, ?_, ?_, ?_, ?_⟩
  · unfold wrapIdx
    have hxm := Int.emod_nonneg x (by omega : (w : Int) ≠ 0)
    have hxl := Int.emod_lt_of_pos x hw0
    have hym := Int.emod_nonneg y (by omega : (h : Int) ≠ 0)
    have hyl := Int.emod_lt_of_pos y hh0
    have key : y % (h : Int) * (w : Int) + x % (w : Int) < ((w * h : Nat) : Int) := by
      have e : (y % (h : Int) + 1) * (w : Int) ≤ (h : Int) * w :=
        mul_le_mul_of_nonneg_right (by omega) (by omega)
      have e2 : (y % (h : Int) + 1) * (w : Int) = y % (h : Int) * w + w := by ring
      have e3 : (h : Int) * w = ((w * h : Nat) : Int) := by push_cast; ring
      omega
    have hnn : 0 ≤ y % (h : Int) * w + x % (w : Int) :=
      add_nonneg (mul_nonneg hym (le_of_lt hw0)) hxm
    exact (Int.toNat_lt hnn).mpr key
  · unfold wrapIdx
    rw [Int.emod_self, Int.emod_self, Int.zero_emod, Int.zero_emod]
  · unfold wrapIdx
    rw [hm1w, hm1h, hw1, hh1]
  · unfold wrapIdx
    rw [hm1h, Int.emod_self, Int.zero_emod, hh1]
  · unfold wrapIdx
    rw [hm1w, Int.emod_self, Int.zero_emod, hw1]

/-- Witness for C3 at `W = H = 3` with the out-of-range coordinates
`(7, -2)`. -/
theorem toroidal_wrap_total_witness :
    wrapIdx 3 3 7 (-2) < 3 * 3 ∧ wrapIdx 3 3 3 3 = wrapIdx 3 3 0 0 :=
  ⟨(toroidal_wrap_total 3 3 7 (-2) (by decide) (by decide)).1,
   (toroidal_wrap_total 3 3 7 (-2) (by decide) (by decide)).2.1⟩

/-- Counterexample for C3 as stated: on a 3×3 grid with only cell (0, 0)
alive, the coordinates `(-1, -1)` resolve to index 8 (cell `(2, 2)`,
dead), not to the same cell as `(0, 0)`. -/
theorem wrap_corner_counterexample :
    getCell 3 3 [1, 0, 0, 0, 0, 0, 0, 0, 0] (-1) (-1) = 0
    ∧ getCell 3 3 [1, 0, 0, 0, 0, 0, 0, 0, 0] 0 0 = 1
    ∧ wrapIdx 3 3 (-1) (-1) = 8
    ∧ wrapIdx 3 3 0 0 = 0 := by
  decide

/-- Counterexample for C7 as stated: constructing with width 0 does not
abort — it yields a live, usable object on which `step` runs normally. -/
theorem zero_dim_counterexample :
    (LifeGame.init 0 5 fun _ => 0).running = true
    ∧ (LifeGame.init 0 5 fun _ => 0).generation = 0
    ∧ (LifeGame.init 0 5 fun _ => 0).step.generation = 1 := by
  decide

/-- C7 (amended): construction with width 0 or height 0 performs no
validation and succeeds, producing a degenerate object with empty cell
buffers; `step` on it is a no-op on the buffers (but still counts the
generation). -/
theorem zero_dim_construction (w h : Nat) (rand : Nat → Nat) (hwh : w = 0 ∨ h = 0) :
    (LifeGame.init w h rand).grid = []
    ∧ (LifeGame.init w h rand).next_grid = []
    ∧ (LifeGame.init w h rand).running = true
    ∧ (LifeGame.init w h rand).generation = 0
    ∧ (LifeGame.init w h rand).step.grid = []
    ∧ (LifeGame.init w h rand).step.generation = 1 := by
  have hwh0 : w * h = 0 := by
    rcases hwh with h0 | h0
    · rw [h0, Nat.zero_mul]
    · rw [h0, Nat.mul_zero]
  have hsb : ∀ grid : List Nat, stepBody w h grid = [] := by
    intro grid
    unfold stepBody
    rw [range_flatMap_map]
    have hhw : h * w = 0 := by
      rcases hwh with h0 | h0
      · rw [h0, Nat.mul_zero]
      · rw [h0, Nat.zero_mul]
    rw [hhw]
    rfl
  simp [LifeGame.init, LifeGame.step, create_grid, randomize_grid, hwh0, hsb]

/-- Witness for C7 (amended) at width 0, height 5. -/
theorem zero_dim_construction_witness :
    (LifeGame.init 0 5 fun _ => 1).grid = []
    ∧ (LifeGame.init 0 5 fun _ => 1).step.generation = 1 :=
  ⟨(zero_dim_construction 0 5 (fun _ => 1) (Or.inl rfl)).1,
   (zero_dim_construction 0 5 (fun _ => 1) (Or.inl rfl)).2.2.2.2.2⟩

/-- C9: after `step`, `next_grid` holds exactly the previous generation
(the old `grid`, preserved intact by the swap), `grid` holds the newly
computed generation, the counter advanced by one, and both subsequent
diff-draw passes therefore compare generation N against generation
N+1. -/
theorem step_buffer_swap (g : LifeGame) :
    g.step.next_grid = g.grid
    ∧ g.step.grid = stepBody g.width g.height g.grid
    ∧ g.step.generation = g.generation + 1
    ∧ (∀ b : Bool, draw_changed_cells g.step b =
        diffDraw g.width g.height g.grid (stepBody g.width g.height g.grid) b) :=
  ⟨rfl, rfl, rfl, fun _ => rfl⟩

/-- C10: cell buffers only ever hold bytes 0 or 1 — creation zero-fills,
randomization writes 0/1 draws, `step` writes only the literals 0 and 1
and preserves the invariant on both buffers — so truthiness of a cell
coincides with equality to 1. -/
theorem cells_zero_one_invariant (w h : Nat) (grid : List Nat) (rand : Nat → Nat)
    (g : LifeGame) (hrand : ∀ i, rand i = 0 ∨ rand i = 1) :
    cells01 (create_grid w h)
    ∧ cells01 (randomize_grid (create_grid w h) rand)
    ∧ cells01 (LifeGame.init w h rand).grid
    ∧ cells01 (LifeGame.init w h rand).next_grid
    ∧ cells01 (stepBody w h grid)
    ∧ (cells01 g.grid → cells01 g.step.grid ∧ cells01 g.step.next_grid)
    ∧ (∀ v : Nat, v = 0 ∨ v = 1 → ((v ≠ 0) ↔ v = 1)) := by
  have hcreate : cells01 (create_grid w h) := by
    intro v hv
    exact Or.inl (List.eq_of_mem_replicate hv)
  have hrandom : ∀ l : List Nat, cells01 (randomize_grid l rand) := by
    intro l v hv
    obtain ⟨i, _, hiv⟩ := List.mem_map.mp hv
    exact hiv ▸ hrand i
  have hstep : ∀ w2 h2 : Nat, ∀ l : List Nat, cells01 (stepBody w2 h2 l) := by
    intro w2 h2 l v hv
    obtain ⟨y, _, x, _, hxv⟩ := by
      simpa only [stepBody, List.mem_flatMap, List.mem_map] using hv
    rw [← hxv]
    split_ifs <;> simp
  refine ⟨hcreate, hrandom _, hrandom _, hcreate, hstep w h grid, ?_, by omega⟩
  intro hg
  exact ⟨hstep g.width g.height g.grid, hg⟩

/-- Witness for C10 with a constant-1 randomizer. -/
theorem cells_zero_one_invariant_witness :
    cells01 (create_grid 2 2) ∧ cells01 (LifeGame.init 2 2 fun _ => 1).grid :=
  ⟨(cells_zero_one_invariant 2 2 [] (fun _ => 1) pausedGame fun _ => Or.inr rfl).1,
   (cells_zero_one_invariant 2 2 [] (fun _ => 1) pausedGame fun _ => Or.inr rfl).2.2.1⟩

/-! ## Run-loop lemmas and claims -/

lemma handleKey_generation (g : LifeGame) (k : Option Char) :
    (handleKey g k).1.generation = g.generation := by
  cases k with
  | none => rfl
  | some c =>
    simp only [handleKey]
    split_ifs <;> rfl

lemma handleKey_quit (g : LifeGame) :
    handleKey g (some 'q') = ({ g with running := false }, []) := by
  simp [handleKey]

lemma runCycle_generation (g : LifeGame) (polls : List (Option Char)) :
    (runCycle g polls).1.generation = g.generation ∨
    (runCycle g polls).1.generation = g.generation + 1 := by
  simp only [runCycle]
  split_ifs <;> simp [handleKey_generation, LifeGame.step]

/-- An iteration whose input handling leaves (or puts) the game in the
paused state does not touch the generation counter. -/
lemma runCycle_paused (g : LifeGame) (polls : List (Option Char))
    (hp : (handleKey g (readKey polls).1).1.paused = true) :
    (runCycle g polls).1.generation = g.generation := by
  simp only [runCycle]
  rw [if_neg (by simp [hp])]
  exact handleKey_generation g (readKey polls).1

lemma runLoop_generation_le (fuel : Nat) :
    ∀ (g : LifeGame) (polls : List (Option Char)),
      g.generation ≤ (runLoop fuel g polls).1.generation := by
  induction fuel with
  | zero => intro g polls; exact Nat.le_refl _
  | succ n ih =>
    intro g polls
    unfold runLoop
    split_ifs with hr
    · have h1 := runCycle_generation g polls
      have h2 := ih (runCycle g polls).1 (runCycle g polls).2.1
      simp only []
      omega
    · exact Nat.le_refl _

/-- Once `running` is cleared, the loop condition fails and nothing more
happens: no steps, no renders, no status reports. -/
lemma runLoop_not_running (fuel : Nat) (g : LifeGame) (polls : List (Option Char))
    (hr : g.running = false) : runLoop fuel g polls = (g, polls, []) := by
  cases fuel with
  | zero => rfl
  | succ n => simp [runLoop, hr]

/-- A quit key at the head of the poll stream clears `running` within the
cycle that reads it. -/
lemma runCycle_quit_running (g : LifeGame) (polls : List (Option Char)) :
    (runCycle g (some 'q' :: polls)).1.running = false := by
  simp only [runCycle, readKey, handleKey_quit]
  split_ifs <;> rfl

lemma draw_full_grid_length (g : LifeGame) :
    (draw_full_grid g).length = g.width * g.height := by
  unfold draw_full_grid
  rw [range_flatMap_map, List.length_map, List.length_range, Nat.mul_comm]

/-- C4: the generation counter starts at 0, is incremented by exactly 1 by
each `step`, is untouched by input handling, does not change through an
iteration spent paused, and never decreases over any run of the loop. -/
theorem generation_counter (w h : Nat) (rand : Nat → Nat) (g : LifeGame)
    (polls : List (Option Char)) (k : Option Char) (fuel : Nat) :
    (LifeGame.init w h rand).generation = 0
    ∧ g.step.generation = g.generation + 1
    ∧ (handleKey g k).1.generation = g.generation
    ∧ ((handleKey g (readKey polls).1).1.paused = true →
        (runCycle g polls).1.generation = g.generation)
    ∧ g.generation ≤ (runLoop fuel g polls).1.generation :=
  ⟨rfl, rfl, handleKey_generation g k, runCycle_paused g polls,
    runLoop_generation_le fuel g polls⟩

/-- Witness for C4 on a concrete paused game. -/
theorem generation_counter_witness :
    (runCycle pausedGame []).1.generation = pausedGame.generation :=
  (generation_counter 1 1 (fun _ => 0) pausedGame [] none 0).2.2.2.1 (by decide)

/-- C5 (amended): a quit key available at the top-of-cycle poll clears
`running` within that cycle (though the cycle still completes, stepping
and rendering once more when unpaused); once `running` is false the loop
performs no further steps, renders, or reports; a quit key first seen at
the post-dwell poll is consumed and discarded (see the
counterexample). -/
theorem quit_event_behavior (g : LifeGame) (polls : List (Option Char)) (fuel : Nat) :
    (runCycle g (some 'q' :: polls)).1.running = false
    ∧ (g.running = false → runLoop fuel g polls = (g, polls, []))
    ∧ (1 ≤ fuel → (runLoop fuel g (some 'q' :: polls)).1.running = false) := by
  refine ⟨runCycle_quit_running g polls, runLoop_not_running fuel g polls, ?_⟩
  intro hf
  cases fuel with
  | zero => omega
  | succ n =>
    by_cases hr : g.running = true
    · simp only [runLoop, hr, if_true]
      rw [runLoop_not_running n _ _ (runCycle_quit_running g polls)]
      exact runCycle_quit_running g polls
    · simp only [runLoop, hr, if_false]
      simpa using hr

/-- Witness for C5 (amended) on concrete games. -/
theorem quit_event_behavior_witness :
    (runLoop 1 deadGame3 [some 'q']).1.running = false
    ∧ runLoop 3 { deadGame3 with running := false } [] =
        ({ deadGame3 with running := false }, [], []) :=
  ⟨(quit_event_behavior deadGame3 [] 1).2.2 (by decide),
   (quit_event_behavior { deadGame3 with running := false } [] 3).2.1 rfl⟩

/-- Counterexample for C5 as stated: a 'q' that becomes available at the
post-dwell poll (line 167) is consumed by `readinto` and discarded by the
`continue`; the run keeps going — `running` is still true with the input
exhausted — and a further step (generation 1) occurs afterwards.  And
even a 'q' read at the top-of-cycle poll is not "immediate": the cycle
still steps once more before the loop condition is rechecked. -/
theorem quit_dropped_counterexample :
    (runLoop 2 deadGame3 [none, some 'q']).1.running = true
    ∧ (runLoop 2 deadGame3 [none, some 'q']).2.1 = []
    ∧ Event.stepped 1 ∈ (runLoop 2 deadGame3 [none, some 'q']).2.2
    ∧ Event.stepped 1 ∈ (runLoop 1 deadGame3 [some 'q']).2.2
    ∧ (runLoop 1 deadGame3 [some 'q']).1.running = false := by
  decide

/-- C8: a toggle-pause key flips `paused` (leaving everything else,
including `running`, unchanged); resuming from the paused state emits the
full unconditional grid redraw — `W·H` blocks via `draw_full_grid` — and
pausing from the running state emits nothing. -/
theorem pause_toggle_redraw (g : LifeGame) (c : Char) (hc : c = 'p' ∨ c = 'P') :
    (handleKey g (some c)).1 = { g with paused := !g.paused }
    ∧ (g.paused = true →
        (handleKey g (some c)).2 =
          [Event.paint (draw_full_grid { g with paused := false })])
    ∧ (g.paused = false → (handleKey g (some c)).2 = [])
    ∧ (draw_full_grid { g with paused := false }).length = g.width * g.height := by
  have hlen := draw_full_grid_length { g with paused := false }
  simp only [handleKey, if_pos hc]
  cases hpg : g.paused <;> simp [hpg] <;> exact hlen

/-- Witness for C8: resuming a concrete paused game. -/
theorem pause_toggle_redraw_witness :
    (handleKey pausedGame (some 'p')).1 = { pausedGame with paused := !pausedGame.paused }
    ∧ (handleKey pausedGame (some 'p')).2 =
        [Event.paint (draw_full_grid { pausedGame with paused := false })]
    ∧ (draw_full_grid { pausedGame with paused := false }).length =
        pausedGame.width * pausedGame.height :=
  ⟨(pause_toggle_redraw pausedGame 'p' (Or.inl rfl)).1,
   (pause_toggle_redraw pausedGame 'p' (Or.inl rfl)).2.1 rfl,
   (pause_toggle_redraw pausedGame 'p' (Or.inl rfl)).2.2.2⟩

end Lifegame
